import Mathlib

/-!
Shallow embedding of `src/live_bot.py` (a Nifty monthly option-buying
forward-test bot, simulation mode): configuration constants, the ledger
state held in module-level globals, the greeks computation, the entry
filter, the trading-permission gate with its month rollover and
last-Tuesday blackout, the position-management pass (stop hit plus
trailing-stop ratchet) and the entry routine.

Modelling conventions:
- prices, greeks and thresholds are exact rationals (the Python floats
  are idealised to the decimal values written in the source);
- Python dicts become structures, `None` becomes `Option.none`;
- external collaborators (the Fyers market-data gateway, the py_vollib
  greeks library, the `datetime` library) enter as explicit parameters;
- mutation of the module-level globals becomes explicit state passing on
  `BotState`; each `save_state` call appends the current snapshot to a
  persistence log so that persistence-visible intermediate states can be
  quantified over.
-/

namespace LiveBot

/-- CONFIG block, `live_bot.py` lines 22-27. `SIMULATION_MODE = True`. -/
def SIMULATION_MODE : Bool := true

/-- Starting capital (line 23). -/
def CAPITAL : ℚ := 100000

/-- Nifty lot size (line 24). -/
def LOT_SIZE : ℕ := 65

/-- Monthly trade cap (line 25). -/
def MAX_TRADES_PER_MONTH : ℕ := 8

/-- Configured stop distance in points (line 26). -/
def SL_POINTS : ℚ := 60

/-- First trailing-upgrade tier: breakeven plus buffer (line 30). -/
def RR_UPGRADE_1 : ℚ := 1.5

/-- Second trailing-upgrade tier: loose trail (line 31). -/
def RR_UPGRADE_2 : ℚ := 1.7

/-- Target tier: tight trail (line 32). -/
def RR_TARGET : ℚ := 2.0

/-- Breakeven buffer in points (line 33). -/
def BREAKEVEN_BUFFER : ℚ := 8

/-- Loose trailing distance in points (line 34). -/
def TRAIL_LOOSE_POINTS : ℚ := 35

/-- Tight trailing distance in points (line 35). -/
def TRAIL_TIGHT_POINTS : ℚ := 20

/-- Greeks thresholds (lines 38-45). -/
def DELTA_MIN : ℚ := 0.42

def DELTA_MAX : ℚ := 0.62

def GAMMA_MIN : ℚ := 0.010

def GAMMA_MAX : ℚ := 0.028

def THETA_MIN : ℚ := -1.60

def THETA_MAX : ℚ := -0.70

def VEGA_MIN : ℚ := 10

def VEGA_MAX : ℚ := 28

/-- Implied-volatility band (lines 47-48). -/
def IV_MIN : ℚ := 13

def IV_MAX : ℚ := 21.5

/-- Premium band (lines 51-52). -/
def MIN_PREMIUM : ℚ := 30

def MAX_PREMIUM : ℚ := 550

/-- Minimum days-to-expiry at entry (line 57). -/
def MIN_DTE_AT_ENTRY : ℤ := 40

/-- Blackout window before the last Tuesday of the month (line 60). -/
def AVOID_LAST_WEEK_DAYS : ℤ := 7

/-- Calendar date on the proleptic Gregorian calendar, standing in for
Python `datetime.date`. -/
structure Date where
  year : ℕ
  month : ℕ
  day : ℕ
deriving DecidableEq

/-- Gregorian leap-year rule (models the `datetime` library calendar). -/
def isLeap (y : ℕ) : Bool :=
  decide ((y % 4 = 0 ∧ ¬y % 100 = 0) ∨ y % 400 = 0)

/-- Length of a month; models `datetime.date(y, m+1, 1) - timedelta(days=1)`
from `get_last_tuesday_dte` (lines 135-139). -/
def daysInMonth (y m : ℕ) : ℕ :=
  if m = 2 then (if isLeap y then 29 else 28)
  else if m = 4 ∨ m = 6 ∨ m = 9 ∨ m = 11 then 30
  else 31

/-- Day count of a proleptic Gregorian date (the standard days-from-civil
algorithm, uncentred); only weekdays and day differences are read off it,
so the absolute offset is irrelevant. -/
def ratadie (y m d : ℕ) : ℕ :=
  let y2 := if m ≤ 2 then y - 1 else y
  let era := y2 / 400
  let yoe := y2 % 400
  let mp := (m + 9) % 12
  let doy := (153 * mp + 2) / 5 + d - 1
  let doe := yoe * 365 + yoe / 4 - yoe / 100 + doy
  era * 146097 + doe

/-- Python `date.weekday()`: Monday = 0, Tuesday = 1, ..., Sunday = 6
(calibrated so that 1970-01-01, whose `ratadie` is 719468, is Thursday 3). -/
def weekday (y m d : ℕ) : ℕ := (ratadie y m d + 2) % 7

/-- Position status strings used by the Python dicts:
`'open'` and `'closed_sl'`. -/
inductive Status where
  | opened
  | closed_sl
deriving DecidableEq

/-- One virtual position / trade record: the dict built in `try_entry`
(lines 353-358), whose close fields are filled in by `manage_positions`
(lines 234-236). The audit-only fields (`entry_time` and the
greeks/iv/dte snapshot) are omitted; no logic reads them. -/
structure Position where
  symbol : String
  entry_premium : ℚ
  qty : ℕ
  current_sl : ℚ
  status : Status
  exit_premium : Option ℚ := none
  pnl_rs : Option ℚ := none
deriving DecidableEq

/-- The dict written by `save_state` (lines 106-113). -/
structure Snapshot where
  virtual_positions : List Position
  trade_history : List Position
  monthly_trades : ℕ
  consec_losses : ℕ
  current_month : ℕ
  equity_curve : List ℚ
deriving DecidableEq

/-- Process state: the six module-level globals (lines 80-85), plus
explicit logs of the `save_state` snapshots and the `log_trade` appends,
so that persistence effects are visible to the theorems. -/
structure BotState where
  virtual_positions : List Position
  trade_history : List Position
  monthly_trades : ℕ
  consec_losses : ℕ
  current_month : ℕ
  equity_curve : List ℚ
  saves : List Snapshot := []
  trade_log : List Position := []
deriving DecidableEq

/-- The persisted view of the state (the dict of `save_state`). -/
def snapshot (st : BotState) : Snapshot :=
  ⟨st.virtual_positions, st.trade_history, st.monthly_trades,
   st.consec_losses, st.current_month, st.equity_curve⟩

/-- Embeds `save_state` (lines 105-115): the current state is appended
to the persistence log. -/
def save_state (st : BotState) : BotState :=
  { st with saves := st.saves ++ [snapshot st] }

/-- Embeds `is_new_month` (lines 122-130), the wall clock passed in as
`today`: on a month change the two monthly counters are zeroed, the
month marker updated and the state persisted. -/
def is_new_month (today : Date) (st : BotState) : BotState :=
  if today.month ≠ st.current_month then
    save_state { st with monthly_trades := 0, consec_losses := 0,
                         current_month := today.month }
  else st

/-- Embeds `get_last_tuesday_dte` (lines 132-145). The `datetime`
arithmetic (last day of the month, weekday, date subtraction) is modelled
by the calendar functions above. Python computes
`offset = (last_day.weekday() - 1) % 7`, which for a weekday in 0..6
equals `(weekday + 6) % 7`; the final guard `last_tue.month != m`
corresponds to the subtraction having left the month, i.e. the resulting
day number being below 1 (it never is, since every month has at least 28
days). The result can be negative: it is the signed day difference. -/
def get_last_tuesday_dte (today : Date) : ℤ :=
  let lastDay := daysInMonth today.year today.month
  let offset := (weekday today.year today.month lastDay + 6) % 7
  let lastTue : ℤ := (lastDay : ℤ) - offset
  let lastTue := if lastTue < 1 then lastTue - 7 else lastTue
  lastTue - today.day

/-- Day of month of the Tuesday that `get_last_tuesday_dte` lands on:
the month's last day moved back to the preceding Tuesday. -/
def lastTuesdayDay (today : Date) : ℕ :=
  daysInMonth today.year today.month -
    (weekday today.year today.month (daysInMonth today.year today.month) + 6) % 7

/-- Embeds `can_trade` (lines 147-159): after the month rollover, trading
is allowed unless the monthly cap is reached, three consecutive losses
have accrued, or the last-Tuesday day difference is within the blackout
window. Returns the decision together with the (possibly rolled-over)
state. -/
def can_trade (today : Date) (st : BotState) : Bool × BotState :=
  if MAX_TRADES_PER_MONTH ≤ (is_new_month today st).monthly_trades then
    (false, is_new_month today st)
  else if 3 ≤ (is_new_month today st).consec_losses then
    (false, is_new_month today st)
  else if get_last_tuesday_dte today ≤ AVOID_LAST_WEEK_DAYS then
    (false, is_new_month today st)
  else (true, is_new_month today st)

/-- Result dict of `get_option_quote` (lines 170-182). -/
structure Quote where
  ltp : ℚ
  iv : ℚ
  oi : ℚ
deriving DecidableEq

/-- The raw return values of one successful round of py_vollib analytical
greeks calls (lines 191-194), before rounding. -/
structure LibGreeks where
  delta : ℚ
  gamma : ℚ
  theta : ℚ
  vega : ℚ
deriving DecidableEq

/-- The external py_vollib calls, as one function of
(flag, spot, strike, t, r, sigma). `none` models the calls raising on a
numerical failure, which the `except` on line 196 catches; a single
`try` wraps all four calls, so they succeed or fail together. -/
def GreeksLib : Type :=
  Bool → ℚ → ℚ → ℚ → ℚ → ℚ → Option LibGreeks

/-- A fully available greeks dict (all four values present).
`get_greeks` only ever returns a dict with all four values present
(lines 187 and 190-195) or all four `None` (line 198), so its result is
an `Option GreeksVals`, with `none` standing for the all-`None` dict. -/
structure GreeksVals where
  delta : ℚ
  gamma : ℚ
  theta_daily : ℚ
  vega : ℚ
deriving DecidableEq

/-- Python `round(x, n)`, modelled with round-half-up (Python rounds
half to even; the two agree away from exact ties, and no theorem below
evaluates at a tie). -/
def roundDp (n : ℕ) (x : ℚ) : ℚ := (round (x * 10 ^ n) : ℤ) / 10 ^ n

/-- Embeds `get_greeks` (lines 184-198); `flag` is `true` for `'c'`.
At or past expiry a degenerate dict is returned without consulting the
library; otherwise the implied volatility is floored at 0.01 and the
library outputs are rounded. The keyword default `q=0.012` is unused in
the body and has no counterpart here. -/
def get_greeks (lib : GreeksLib) (flag : Bool) (spot strike : ℚ)
    (dte : ℤ) (iv_pct : ℚ) : Option GreeksVals :=
  let r : ℚ := 0.065
  let t : ℚ := (dte : ℚ) / 365
  if t ≤ 0 then some ⟨if flag then 1 else -1, 0, 0, 0⟩
  else
    let sigma : ℚ := max 0.01 (iv_pct / 100)
    match lib flag spot strike t r sigma with
    | none => none
    | some g =>
        some ⟨roundDp 4 g.delta, roundDp 4 g.gamma,
              roundDp 3 (g.theta * 365), roundDp 2 g.vega⟩

/-- A greeks library whose calls always raise (numerical failure). -/
def failing_lib : GreeksLib := fun _ _ _ _ _ _ => none

/-- Modelled from the spec (section 4.1): theta reported in
per-calendar-day units is the per-annum theta of the raw Black-Scholes
formula divided by 365. The py_vollib library (an external collaborator)
already performs this division, so its analytical `theta` output is the
per-annum theta divided by 365. -/
def theta_per_day_spec (annualTheta : ℚ) : ℚ := annualTheta / 365

/-- Embeds `filter_entry` (lines 200-216). `none` is the all-`None`
greeks dict, on which the code returns `False` at the `is None` check;
otherwise the conjunction of the seven closed-interval / floor tests. -/
def filter_entry (greeks : Option GreeksVals) (premium iv : ℚ)
    (dte : ℤ) : Bool :=
  match greeks with
  | none => false
  | some g =>
      decide (DELTA_MIN ≤ g.delta ∧ g.delta ≤ DELTA_MAX ∧
              GAMMA_MIN ≤ g.gamma ∧ g.gamma ≤ GAMMA_MAX ∧
              THETA_MIN ≤ g.theta_daily ∧ g.theta_daily ≤ THETA_MAX ∧
              VEGA_MIN ≤ g.vega ∧ g.vega ≤ VEGA_MAX ∧
              IV_MIN ≤ iv ∧ iv ≤ IV_MAX ∧
              MIN_PREMIUM ≤ premium ∧ premium ≤ MAX_PREMIUM ∧
              MIN_DTE_AT_ENTRY ≤ dte)

/-- The tiered trailing-stop candidate of `manage_positions`
(lines 246-254), evaluated from the most aggressive tier downward.
`mult` is 0 when the entry premium is not positive. -/
def ratchet_candidate (p : Position) (ltp : ℚ) : ℚ :=
  let mult : ℚ := if 0 < p.entry_premium then ltp / p.entry_premium else 0
  if RR_TARGET ≤ mult then ltp - TRAIL_TIGHT_POINTS
  else if RR_UPGRADE_2 ≤ mult then ltp - TRAIL_LOOSE_POINTS
  else if RR_UPGRADE_1 ≤ mult then p.entry_premium + BREAKEVEN_BUFFER
  else p.current_sl

/-- The one-directional stop promotion (lines 256-257): the candidate is
applied only when strictly above the current stop. -/
def apply_ratchet (p : Position) (ltp : ℚ) : Position :=
  if p.current_sl < ratchet_candidate p ltp then
    { p with current_sl := ratchet_candidate p ltp }
  else p

/-- The close record built at a stop hit (lines 234-236): status
`closed_sl`, exit premium the last traded price, realised loss the fixed
`SL_POINTS * LOT_SIZE` rather than the literal difference. -/
def close_record (p : Position) (ltp : ℚ) : Position :=
  { p with status := Status.closed_sl, exit_premium := some ltp,
           pnl_rs := some (-(SL_POINTS * (LOT_SIZE : ℚ))) }

/-- Loop body of `manage_positions` (lines 223-258). The Python loop
walks a copy of `virtual_positions` while mutating the live list; here
`done` holds the already-visited (possibly ratcheted) survivors and the
next argument the positions still to visit, so the live list at any
moment is `done ++ rest`. On a stop hit the record is appended to the
history and the trade log, the loss counter bumped, the equity curve
extended by its last entry plus the (negative) fixed loss, the position
removed and the state persisted (`equity_curve[-1]` presupposes a
nonempty curve in Python; `getLastD 0` makes that read total). -/
def manage_go (quotes : String → Option Quote) :
    List Position → List Position → BotState → BotState
  | done, [], st => { st with virtual_positions := done }
  | done, p :: rest, st =>
    if p.status ≠ Status.opened then manage_go quotes (done ++ [p]) rest st
    else
      match quotes p.symbol with
      | none => manage_go quotes (done ++ [p]) rest st
      | some q =>
        if q.ltp = 0 then manage_go quotes (done ++ [p]) rest st
        else if q.ltp ≤ p.current_sl then
          let closed := close_record p q.ltp
          let st1 :=
            { st with
              trade_history := st.trade_history ++ [closed],
              trade_log := st.trade_log ++ [closed],
              consec_losses := st.consec_losses + 1,
              equity_curve := st.equity_curve ++
                [st.equity_curve.getLastD 0 + -(SL_POINTS * (LOT_SIZE : ℚ))],
              virtual_positions := done ++ rest }
          manage_go quotes done rest (save_state st1)
        else manage_go quotes (done ++ [apply_ratchet p q.ltp]) rest st

/-- Embeds `manage_positions` (lines 221-258); `quotes` is the
market-data collaborator for this pass. -/
def manage_positions (quotes : String → Option Quote) (st : BotState) :
    BotState :=
  manage_go quotes [] st.virtual_positions st

/-- Several successive management passes, one quote snapshot each. -/
def run_cycles (cycles : List (String → Option Quote)) (st : BotState) :
    BotState :=
  cycles.foldl (fun s quotes => manage_positions quotes s) st

/-- Python `int(float(x))` on an exact rational: truncation toward zero. -/
def pyint (x : ℚ) : ℤ := x.num / (x.den : ℤ)

/-- Python one-argument `round` on an exact rational, modelled with
round-half-up (Python rounds half to even; no theorem below evaluates at
a tie). -/
def pyround (x : ℚ) : ℤ := round x

/-- Whether the first list is an initial segment of the second. -/
def listStarts : List Char → List Char → Bool
  | [], _ => true
  | _ :: _, [] => false
  | a :: as, b :: bs => a == b && listStarts as bs

/-- Whether the first list occurs contiguously inside the second. -/
def listHasIn (needle : List Char) : List Char → Bool
  | [] => listStarts needle []
  | c :: t => listStarts needle (c :: t) || listHasIn needle t

/-- Python `needle in hay` on strings: contiguous-substring test. -/
def strIn (needle hay : String) : Bool := listHasIn needle.toList hay.toList

/-- One option row of the Fyers option-chain response, with the fields
read on lines 309-312; the numeric fields arrive as floats and are
truncated with `int(float(.))`. -/
structure ChainOption where
  strike_price : ℚ
  expiry : ℚ
  option_type : String
  symbol : String

/-- The option-chain payload (lines 274 and 304): the expiry rows with
`int(float(exp['expiry']))` already attempted — `none` for rows whose
expiry fails to parse (the bare `except: continue` on lines 282-285) —
plus the option rows. -/
structure ChainData where
  expiryData : List (Option ℤ)
  optionsChain : List ChainOption

/-- The external collaborators consulted by `try_entry`: the spot quote,
the option chain, the `datetime` conversions of an expiry timestamp (day
difference to now, upper-cased `%b` month name, `%y` year code), the
per-symbol quotes and the greeks library. `none` models an error or
not-ok response. -/
structure TryEnv where
  spot : Option ℚ
  chain : Option ChainData
  tsDte : ℤ → ℤ
  tsMonth : ℤ → String
  tsYear : ℤ → String
  quote : String → Option Quote
  lib : GreeksLib

/-- Expiry-selection loop of `try_entry` (lines 280-295): the first
parsed expiry whose day difference is at least `MIN_DTE_AT_ENTRY`,
together with that difference. -/
def find_target_expiry (env : TryEnv) (rows : List (Option ℤ)) :
    Option (ℤ × ℤ) :=
  rows.findSome? fun e =>
    match e with
    | none => none
    | some ts =>
        if MIN_DTE_AT_ENTRY ≤ env.tsDte ts then some (ts, env.tsDte ts)
        else none

/-- Symbol-matching loop of `try_entry` (lines 307-324): the first row at
the target strike with option type `CE` that matches the chosen expiry
either by exact timestamp or by month-name and year-code containment. -/
def find_symbol (opts : List ChainOption) (targetStrike targetTs : ℤ)
    (mname ycode : String) : Option String :=
  (opts.find? fun opt =>
      pyint opt.strike_price == targetStrike &&
      opt.option_type == "CE" &&
      (pyint opt.expiry == targetTs ||
        (strIn mname opt.symbol && strIn ycode opt.symbol))).map
    (fun opt => opt.symbol)

/-- Embeds `try_entry` (lines 260-373) in simulation mode. Every early
`return` yields the state as left by `can_trade` (whose month rollover
may already have fired). A successful entry bumps `monthly_trades`,
zeroes `consec_losses`, appends the new open position with initial stop
`premium - SL_POINTS` and persists. Python's `if not spot` and
`if not target_ts` are also true for the value 0, hence the two zero
guards. The broad `except` on line 371 only wraps collaborator calls,
which are total here. -/
def try_entry (env : TryEnv) (today : Date) (st0 : BotState) : BotState :=
  let ct := can_trade today st0
  let st := ct.2
  if ct.1 = false then st
  else
    match env.spot with
    | none => st
    | some spot =>
      if spot = 0 then st
      else
        match env.chain with
        | none => st
        | some chain =>
          match find_target_expiry env chain.expiryData with
          | none => st
          | some (ts, dte) =>
            if ts = 0 then st
            else
              let targetStrike : ℤ := pyround (spot / 50) * 50
              match find_symbol chain.optionsChain targetStrike ts
                  (env.tsMonth ts) (env.tsYear ts) with
              | none => st
              | some sym =>
                match env.quote sym with
                | none => st
                | some q =>
                  if q.ltp < MIN_PREMIUM ∨ MAX_PREMIUM < q.ltp then st
                  else
                    let premium := q.ltp
                    let iv := q.iv
                    let greeks :=
                      get_greeks env.lib true spot (targetStrike : ℚ) dte iv
                    if filter_entry greeks premium iv dte = false then st
                    else
                      let st :=
                        { st with monthly_trades := st.monthly_trades + 1,
                                  consec_losses := 0 }
                      let entry : Position :=
                        { symbol := sym, entry_premium := premium,
                          qty := LOT_SIZE,
                          current_sl := premium - SL_POINTS,
                          status := Status.opened }
                      let st :=
                        if SIMULATION_MODE then
                          { st with virtual_positions :=
                              st.virtual_positions ++ [entry] }
                        else st
                      save_state st

/-- How many positions of a list carry the given symbol. -/
def symCount (s : String) (ps : List Position) : ℕ :=
  (ps.filter fun p => p.symbol == s).length

/-- The close-atomicity invariant for a symbol on a persisted snapshot:
the symbol is in the open set or in the history, and in exactly one of
the two, exactly once. -/
def closeInv (s : String) (snap : Snapshot) : Prop :=
  symCount s snap.virtual_positions + symCount s snap.trade_history = 1

/-- A single open position at the given stop, entered at premium 100. -/
def w_pos (sl : ℚ) : Position := ⟨"S", 100, 65, sl, Status.opened, none, none⟩

/-- A fresh ledger holding one open position entered at premium 100 with
the given stop (the entry logic would seed it at `100 - SL_POINTS = 40`). -/
def w_state (sl : ℚ) : BotState := ⟨[w_pos sl], [], 0, 0, 1, [CAPITAL], [], []⟩

/-- A quote snapshot returning the given last traded price for every
symbol. -/
def w_quote (v : ℚ) : String → Option Quote := fun _ => some ⟨v, 0, 0⟩

/-- A position entered at premium 120 with stop 60, as in the spec's
end-to-end scenario. -/
def c2_pos : Position := ⟨"S", 120, 65, 60, Status.opened, none, none⟩

/-- A ledger holding only `c2_pos`. -/
def c2_state : BotState := ⟨[c2_pos], [], 1, 0, 1, [CAPITAL], [], []⟩

/-- A quote snapshot at last traded price 50, below the stop of `c2_pos`. -/
def c2_quotes : String → Option Quote := fun _ => some ⟨50, 11, 0⟩

/-- A greeks library returning fixed raw values, with analytical theta
−1; under the py_vollib convention (per-annum theta divided by 365) this
models a contract whose per-annum Black-Scholes theta is −365. -/
def c7_lib : GreeksLib := fun _ _ _ _ _ _ => some ⟨0.5, 0.02, -1, 15⟩

/-- A ledger with zeroed counters whose month marker is September. -/
def c9_state : BotState := ⟨[], [], 5, 2, 9, [CAPITAL], [], []⟩

/-- A ledger with zeroed counters whose month marker is October. -/
def c8_state : BotState := ⟨[], [], 0, 0, 10, [CAPITAL], [], []⟩

/-- Collaborator inputs on which every stage of `try_entry` succeeds:
spot 25760 (so the target strike is 25750), one chain expiry 45 days
out, a matching CE row, a quote at premium 385 / implied volatility 15,
and a greeks library whose rounded outputs pass every threshold. -/
def demo_env : TryEnv where
  spot := some 25760
  chain := some ⟨[some 100], [⟨25750, 100, "CE", "NIFTY26FEB25750CE"⟩]⟩
  tsDte := fun _ => 45
  tsMonth := fun _ => "FEB"
  tsYear := fun _ => "26"
  quote := fun _ => some ⟨385, 15, 0⟩
  lib := fun _ _ _ _ _ _ => some ⟨0.5, 0.02, -(1 : ℚ) / 365, 15⟩

/-- An empty ledger whose month marker is October. -/
def demo_state : BotState := ⟨[], [], 0, 0, 10, [CAPITAL], [], []⟩

/-- Evaluation of one management pass of the ratchet scenario: a quote
of 151 on a stop of 40 (multiple 1.51, first tier) promotes the stop to
breakeven plus buffer, 108. -/
theorem eval_ratchet_151 :
    manage_positions (w_quote 151) (w_state 40) = w_state 108 := by
  norm_num [manage_positions, manage_go, w_state, w_pos, w_quote,
    apply_ratchet, ratchet_candidate, RR_TARGET, RR_UPGRADE_1,
    RR_UPGRADE_2, TRAIL_TIGHT_POINTS, TRAIL_LOOSE_POINTS,
    BREAKEVEN_BUFFER]

/-- Evaluation of one management pass of the ratchet scenario: a quote
of 171 on a stop of 108 (multiple 1.71, second tier) promotes the stop
to the loose trail, 136. -/
theorem eval_ratchet_171 :
    manage_positions (w_quote 171) (w_state 108) = w_state 136 := by
  norm_num [manage_positions, manage_go, w_state, w_pos, w_quote,
    apply_ratchet, ratchet_candidate, RR_TARGET, RR_UPGRADE_1,
    RR_UPGRADE_2, TRAIL_TIGHT_POINTS, TRAIL_LOOSE_POINTS,
    BREAKEVEN_BUFFER]

/-- Evaluation of one management pass of the ratchet scenario: a quote
of 205 on a stop of 136 (multiple 2.05, target tier) promotes the stop
to the tight trail, 185. -/
theorem eval_ratchet_205 :
    manage_positions (w_quote 205) (w_state 136) = w_state 185 := by
  norm_num [manage_positions, manage_go, w_state, w_pos, w_quote,
    apply_ratchet, ratchet_candidate, RR_TARGET, RR_UPGRADE_1,
    RR_UPGRADE_2, TRAIL_TIGHT_POINTS, TRAIL_LOOSE_POINTS,
    BREAKEVEN_BUFFER]

/-- C3: the stop ratchet evaluates tiers from the most aggressive
multiple downward, so with entry premium 100, breakeven buffer 8, loose
trail 35, tight trail 20 and tiers 1.5/1.7/2.0: a quote of 151 yields
stop 108, a quote of 171 yields stop 136, a quote of 205 yields stop
185, and feeding these quotes in increasing order the stop only ever
increases. -/
theorem ratchet_tiers :
    (run_cycles [w_quote 151] (w_state 40)).virtual_positions =
      [w_pos 108] ∧
    (run_cycles [w_quote 151, w_quote 171] (w_state 40)).virtual_positions =
      [w_pos 136] ∧
    (run_cycles [w_quote 151, w_quote 171, w_quote 205]
        (w_state 40)).virtual_positions = [w_pos 185] ∧
    (w_pos 40).current_sl < (w_pos 108).current_sl ∧
    (w_pos 108).current_sl < (w_pos 136).current_sl ∧
    (w_pos 136).current_sl < (w_pos 185).current_sl := by
  refine ⟨?_, ?_, ?_, by norm_num [w_pos], by norm_num [w_pos],
    by norm_num [w_pos]⟩ <;>
  · simp only [run_cycles, List.foldl_cons, List.foldl_nil]
    rw [eval_ratchet_151]
    try rw [eval_ratchet_171]
    try rw [eval_ratchet_205]
    simp [w_state]

/-- C5: the entry filter returns true if and only if all seven
sub-conditions hold — delta, gamma, theta-per-day, vega, implied
volatility and premium each within their closed min/max interval, and
days-to-expiry at or above its floor; whenever any one sub-condition
fails, the filter returns false. -/
theorem filter_entry_conjunction :
    ∀ (g : GreeksVals) (premium iv : ℚ) (dte : ℤ),
      (filter_entry (some g) premium iv dte = true ↔
        ((DELTA_MIN ≤ g.delta ∧ g.delta ≤ DELTA_MAX) ∧
         (GAMMA_MIN ≤ g.gamma ∧ g.gamma ≤ GAMMA_MAX) ∧
         (THETA_MIN ≤ g.theta_daily ∧ g.theta_daily ≤ THETA_MAX) ∧
         (VEGA_MIN ≤ g.vega ∧ g.vega ≤ VEGA_MAX) ∧
         (IV_MIN ≤ iv ∧ iv ≤ IV_MAX) ∧
         (MIN_PREMIUM ≤ premium ∧ premium ≤ MAX_PREMIUM) ∧
         MIN_DTE_AT_ENTRY ≤ dte)) ∧
      (¬(DELTA_MIN ≤ g.delta ∧ g.delta ≤ DELTA_MAX) →
        filter_entry (some g) premium iv dte = false) ∧
      (¬(GAMMA_MIN ≤ g.gamma ∧ g.gamma ≤ GAMMA_MAX) →
        filter_entry (some g) premium iv dte = false) ∧
      (¬(THETA_MIN ≤ g.theta_daily ∧ g.theta_daily ≤ THETA_MAX) →
        filter_entry (some g) premium iv dte = false) ∧
      (¬(VEGA_MIN ≤ g.vega ∧ g.vega ≤ VEGA_MAX) →
        filter_entry (some g) premium iv dte = false) ∧
      (¬(IV_MIN ≤ iv ∧ iv ≤ IV_MAX) →
        filter_entry (some g) premium iv dte = false) ∧
      (¬(MIN_PREMIUM ≤ premium ∧ premium ≤ MAX_PREMIUM) →
        filter_entry (some g) premium iv dte = false) ∧
      (¬MIN_DTE_AT_ENTRY ≤ dte →
        filter_entry (some g) premium iv dte = false) := by
  intro g premium iv dte
  have h : filter_entry (some g) premium iv dte = true ↔
      (DELTA_MIN ≤ g.delta ∧ g.delta ≤ DELTA_MAX ∧
       GAMMA_MIN ≤ g.gamma ∧ g.gamma ≤ GAMMA_MAX ∧
       THETA_MIN ≤ g.theta_daily ∧ g.theta_daily ≤ THETA_MAX ∧
       VEGA_MIN ≤ g.vega ∧ g.vega ≤ VEGA_MAX ∧
       IV_MIN ≤ iv ∧ iv ≤ IV_MAX ∧
       MIN_PREMIUM ≤ premium ∧ premium ≤ MAX_PREMIUM ∧
       MIN_DTE_AT_ENTRY ≤ dte) := by
    simp [filter_entry]
  refine ⟨by rw [h]; tauto, ?_, ?_, ?_, ?_, ?_, ?_, ?_⟩ <;>
    · intro hc
      rw [Bool.eq_false_iff]
      intro ht
      have hall := h.mp ht
      exact hc (by tauto)

/-- Witness for C5: a concrete candidate passing all seven tests is
accepted by the filter. -/
theorem filter_entry_conjunction_witness :
    filter_entry (some ⟨0.5, 0.02, -1, 15⟩) 385 15 45 = true :=
  (filter_entry_conjunction ⟨0.5, 0.02, -1, 15⟩ 385 15 45).1.mpr
    (by norm_num [DELTA_MIN, DELTA_MAX, GAMMA_MIN, GAMMA_MAX, THETA_MIN,
      THETA_MAX, VEGA_MIN, VEGA_MAX, IV_MIN, IV_MAX, MIN_PREMIUM,
      MAX_PREMIUM, MIN_DTE_AT_ENTRY])

/-- C6: when the greeks computation fails numerically the result is the
all-unavailable dict rather than an exception, and the entry filter
returns false on a greeks result whose delta is unavailable, for every
other input. -/
theorem greeks_unavailable_handling :
    (∀ (flag : Bool) (spot strike : ℚ) (dte : ℤ) (iv : ℚ), 0 < dte →
        get_greeks failing_lib flag spot strike dte iv = none) ∧
    (∀ (premium iv : ℚ) (dte : ℤ),
        filter_entry none premium iv dte = false) := by
  constructor
  · intro flag spot strike dte iv hdte
    have hq : (0 : ℚ) < (dte : ℚ) := by exact_mod_cast hdte
    have ht : ¬((dte : ℚ) / 365 ≤ 0) := by
      rw [not_le]
      exact div_pos hq (by norm_num)
    simp [get_greeks, failing_lib, ht]
  · intro premium iv dte
    rfl

/-- Witness for C6 at a concrete expiry and concrete filter inputs. -/
theorem greeks_unavailable_handling_witness :
    get_greeks failing_lib true 25000 25000 45 15 = none ∧
    filter_entry none 385 15 45 = false :=
  ⟨greeks_unavailable_handling.1 true 25000 25000 45 15 (by decide),
   greeks_unavailable_handling.2 385 15 45⟩

/-- C7 (code bug, evaluated at the failing input): with the library's
analytical theta −1 — per the py_vollib convention the per-annum
Black-Scholes theta −365 already divided by 365 — the code multiplies by
365 and reports `theta_daily = -365`, the per-annum value, whereas the
per-calendar-day normalization demanded by the spec is
`theta_per_day_spec (-365) = -1`. -/
theorem theta_units_bug :
    (get_greeks c7_lib true 25000 25000 45 15).map GreeksVals.theta_daily =
      some (-365) ∧
    theta_per_day_spec (-365) = -1 ∧ ((-365 : ℚ) ≠ -1) := by
  refine ⟨?_, by norm_num [theta_per_day_spec], by norm_num⟩
  norm_num [get_greeks, c7_lib, roundDp, round_eq]

/-- C9: crossing a month boundary resets the monthly trade counter and
the consecutive-loss counter to 0, updates the month marker, and leaves
the trade history, the open-position list and the equity curve
unchanged. -/
theorem month_rollover_frame :
    ∀ (st : BotState) (today : Date), today.month ≠ st.current_month →
      (is_new_month today st).monthly_trades = 0 ∧
      (is_new_month today st).consec_losses = 0 ∧
      (is_new_month today st).current_month = today.month ∧
      (is_new_month today st).trade_history = st.trade_history ∧
      (is_new_month today st).virtual_positions = st.virtual_positions ∧
      (is_new_month today st).equity_curve = st.equity_curve := by
  intro st today h
  simp [is_new_month, save_state, h]

/-- Witness for C9: an October scan against a September marker. -/
theorem month_rollover_frame_witness :
    (is_new_month ⟨2026, 10, 12⟩ c9_state).monthly_trades = 0 ∧
    (is_new_month ⟨2026, 10, 12⟩ c9_state).consec_losses = 0 ∧
    (is_new_month ⟨2026, 10, 12⟩ c9_state).current_month = 10 ∧
    (is_new_month ⟨2026, 10, 12⟩ c9_state).trade_history =
      c9_state.trade_history ∧
    (is_new_month ⟨2026, 10, 12⟩ c9_state).virtual_positions =
      c9_state.virtual_positions ∧
    (is_new_month ⟨2026, 10, 12⟩ c9_state).equity_curve =
      c9_state.equity_curve :=
  month_rollover_frame c9_state ⟨2026, 10, 12⟩ (by decide)

/-- The day-count formula is affine in the day-of-month argument. -/
theorem ratadie_linear (y m d : ℕ) (hd : 1 ≤ d) :
    ratadie y m d = ratadie y m 1 + (d - 1) := by
  simp only [ratadie]
  split <;> omega

/-- Within a month the weekday advances by one per day, anchored at the
day count of the first of the month. -/
theorem weekday_linear (y m d : ℕ) (hd : 1 ≤ d) :
    weekday y m d = (ratadie y m 1 + 1 + d) % 7 := by
  unfold weekday
  rw [ratadie_linear y m d hd]
  omega

/-- Every month has at least 28 days. -/
theorem daysInMonth_ge (y m : ℕ) : 28 ≤ daysInMonth y m := by
  unfold daysInMonth
  split_ifs <;> omega

/-- The day reached by stepping back `(weekday lastDay + 6) % 7` days
from the month's last day is a Tuesday, lies in the month, and no later
day of the month is a Tuesday. -/
theorem last_tuesday_props (y m : ℕ) :
    weekday y m (daysInMonth y m -
        (weekday y m (daysInMonth y m) + 6) % 7) = 1 ∧
    (∀ d : ℕ,
        daysInMonth y m - (weekday y m (daysInMonth y m) + 6) % 7 < d →
        d ≤ daysInMonth y m → weekday y m d ≠ 1) := by
  have hL : 28 ≤ daysInMonth y m := daysInMonth_ge y m
  have hw : ∀ d, 1 ≤ d →
      weekday y m d = (ratadie y m 1 + 1 + d) % 7 :=
    fun d hd => weekday_linear y m d hd
  have hwL : weekday y m (daysInMonth y m) =
      (ratadie y m 1 + 1 + daysInMonth y m) % 7 := hw _ (by omega)
  have hT1 : 1 ≤ daysInMonth y m -
      (weekday y m (daysInMonth y m) + 6) % 7 := by omega
  constructor
  · rw [hw _ hT1, hwL]
    omega
  · intro d hd1 hd2
    rw [hwL] at hd1
    rw [hw d (by omega)]
    omega

/-- C8: the entry-permission gate returns false exactly when the monthly
trade counter (after rollover) has reached the cap, or consecutive
losses (after rollover) have reached 3, or the day difference to the
final Tuesday on or before the last calendar day of the current month is
at most the blackout size; and the day that difference is computed
against really is that final Tuesday. -/
theorem can_trade_gate :
    ∀ (st : BotState) (today : Date),
      ((can_trade today st).1 = false ↔
        (MAX_TRADES_PER_MONTH ≤ (is_new_month today st).monthly_trades ∨
         3 ≤ (is_new_month today st).consec_losses ∨
         get_last_tuesday_dte today ≤ AVOID_LAST_WEEK_DAYS)) ∧
      weekday today.year today.month (lastTuesdayDay today) = 1 ∧
      lastTuesdayDay today ≤ daysInMonth today.year today.month ∧
      (∀ d : ℕ, lastTuesdayDay today < d →
          d ≤ daysInMonth today.year today.month →
          weekday today.year today.month d ≠ 1) ∧
      get_last_tuesday_dte today = (lastTuesdayDay today : ℤ) - today.day := by
  intro st today
  obtain ⟨h1, h2⟩ := last_tuesday_props today.year today.month
  have hL : 28 ≤ daysInMonth today.year today.month :=
    daysInMonth_ge today.year today.month
  have hoff : (weekday today.year today.month
      (daysInMonth today.year today.month) + 6) % 7 < 7 :=
    Nat.mod_lt _ (by omega)
  refine ⟨?_, h1, by unfold lastTuesdayDay; omega, h2, ?_⟩
  · unfold can_trade
    split_ifs with ha hb hc
    · exact iff_of_true rfl (Or.inl ha)
    · exact iff_of_true rfl (Or.inr (Or.inl hb))
    · exact iff_of_true rfl (Or.inr (Or.inr hc))
    · exact iff_of_false (by simp) (by rintro (h | h | h) <;> contradiction)
  · simp only [get_last_tuesday_dte, lastTuesdayDay]
    rw [if_neg (by omega)]
    omega

/-- Witness for C8: with zeroed counters on 2026-10-12 (the last Tuesday
of October 2026 is the 27th, fifteen days out) the gate allows trading. -/
theorem can_trade_gate_witness :
    (can_trade ⟨2026, 10, 12⟩ c8_state).1 = true := by
  have h := (can_trade_gate c8_state ⟨2026, 10, 12⟩).1
  rcases Bool.eq_false_or_eq_true (can_trade ⟨2026, 10, 12⟩ c8_state).1 with
    hb | hb
  · exact hb
  · exact absurd (h.mp hb) (by decide)

/-- C2: a quote at or below the current stop closes the position with
exit premium the last traded price, a realised loss of the configured
stop distance times the quantity (not the literal entry-minus-exit
difference), the loss counter incremented, one new equity-curve entry
equal to the previous entry minus the fixed loss, the record appended to
history, the position removed from the open set, and the state
persisted. -/
theorem stop_close_effects :
    ∀ (quotes : String → Option Quote) (st : BotState) (p : Position)
      (q : Quote),
      st.virtual_positions = [p] →
      p.status = Status.opened →
      quotes p.symbol = some q →
      q.ltp ≠ 0 →
      q.ltp ≤ p.current_sl →
      p.qty = LOT_SIZE →
      (manage_positions quotes st).virtual_positions = [] ∧
      (manage_positions quotes st).trade_history =
        st.trade_history ++ [close_record p q.ltp] ∧
      (close_record p q.ltp).status = Status.closed_sl ∧
      (close_record p q.ltp).exit_premium = some q.ltp ∧
      (close_record p q.ltp).pnl_rs = some (-(SL_POINTS * (p.qty : ℚ))) ∧
      (manage_positions quotes st).consec_losses = st.consec_losses + 1 ∧
      (manage_positions quotes st).equity_curve =
        st.equity_curve ++
          [st.equity_curve.getLastD 0 - SL_POINTS * (p.qty : ℚ)] ∧
      (manage_positions quotes st).saves =
        st.saves ++ [snapshot (manage_positions quotes st)] := by
  intro quotes st p q hpos hst hq hz hle hqty
  obtain ⟨vp, th, mt, cl, cm, ec, sv, tl⟩ := st
  simp only at hpos
  subst hpos
  have key : manage_positions quotes
      ⟨[p], th, mt, cl, cm, ec, sv, tl⟩ =
      ⟨[], th ++ [close_record p q.ltp], mt, cl + 1, cm,
        ec ++ [ec.getLastD 0 + -(SL_POINTS * (LOT_SIZE : ℚ))],
        sv ++ [⟨[], th ++ [close_record p q.ltp], mt, cl + 1, cm,
          ec ++ [ec.getLastD 0 + -(SL_POINTS * (LOT_SIZE : ℚ))]⟩],
        tl ++ [close_record p q.ltp]⟩ := by
    unfold manage_positions
    simp only [manage_go, hst, hq, hz, hle, ne_eq, not_true_eq_false,
      if_false, ite_false, if_true, ite_true, not_false_iff,
      List.nil_append, List.append_nil, save_state, snapshot, if_pos,
      if_neg, reduceIte]
  rw [key]
  refine ⟨rfl, rfl, rfl, rfl, ?_, rfl, ?_, ?_⟩
  · simp [close_record, hqty]
  · simp [hqty, sub_eq_add_neg]
  · simp [snapshot]

/-- Witness for C2: a quote of 50 against a stop of 60 on a position
entered at 120 closes it with the fixed 60-point loss. -/
theorem stop_close_effects_witness :
    (manage_positions c2_quotes c2_state).virtual_positions = [] ∧
    (manage_positions c2_quotes c2_state).trade_history =
      c2_state.trade_history ++ [close_record c2_pos (50 : ℚ)] ∧
    (close_record c2_pos (50 : ℚ)).status = Status.closed_sl ∧
    (close_record c2_pos (50 : ℚ)).exit_premium = some (50 : ℚ) ∧
    (close_record c2_pos (50 : ℚ)).pnl_rs =
      some (-(SL_POINTS * (c2_pos.qty : ℚ))) ∧
    (manage_positions c2_quotes c2_state).consec_losses =
      c2_state.consec_losses + 1 ∧
    (manage_positions c2_quotes c2_state).equity_curve =
      c2_state.equity_curve ++
        [c2_state.equity_curve.getLastD 0 -
          SL_POINTS * (c2_pos.qty : ℚ)] ∧
    (manage_positions c2_quotes c2_state).saves =
      c2_state.saves ++ [snapshot (manage_positions c2_quotes c2_state)] :=
  stop_close_effects c2_quotes c2_state c2_pos ⟨50, 11, 0⟩ rfl rfl rfl
    (by show (50 : ℚ) ≠ 0; norm_num)
    (by show (50 : ℚ) ≤ (60 : ℚ); norm_num) rfl

/-- The symbol-count is additive over list concatenation. -/
theorem symCount_append (s : String) (a b : List Position) :
    symCount s (a ++ b) = symCount s a + symCount s b := by
  simp [symCount, List.filter_append]

/-- The symbol-count splits off the head of a list. -/
theorem symCount_cons (s : String) (p : Position) (l : List Position) :
    symCount s (p :: l) = symCount s [p] + symCount s l := by
  by_cases hb : p.symbol == s
  · simp [symCount, List.filter_cons, List.filter_nil, hb]
    omega
  · simp [symCount, List.filter_cons, List.filter_nil, hb]

/-- Positions with the same symbol contribute the same singleton count. -/
theorem symCount_singleton_congr (s : String) (p p2 : Position)
    (h : p2.symbol = p.symbol) : symCount s [p2] = symCount s [p] := by
  simp only [symCount, List.filter_cons, List.filter_nil, h]
  split <;> rfl

/-- Closing a position does not change its symbol. -/
theorem close_record_symbol (p : Position) (ltp : ℚ) :
    (close_record p ltp).symbol = p.symbol := rfl

/-- The ratchet does not change the symbol of a position. -/
theorem apply_ratchet_symbol (p : Position) (ltp : ℚ) :
    (apply_ratchet p ltp).symbol = p.symbol := by
  unfold apply_ratchet
  split <;> rfl

/-- The ratchet never lowers the stop of a position. -/
theorem apply_ratchet_sl (p : Position) (ltp : ℚ) :
    p.current_sl ≤ (apply_ratchet p ltp).current_sl := by
  unfold apply_ratchet
  split
  · exact le_of_lt (by assumption)
  · exact le_refl _

/-- Any lower bound on the stops of the positions carrying a symbol is
preserved by the management loop. -/
theorem manage_go_sl_lb (quotes : String → Option Quote) (s : String)
    (x : ℚ) :
    ∀ (rest done : List Position) (st : BotState),
      (∀ p ∈ done ++ rest, p.symbol = s → x ≤ p.current_sl) →
      ∀ p2 ∈ (manage_go quotes done rest st).virtual_positions,
        p2.symbol = s → x ≤ p2.current_sl := by
  intro rest
  induction rest with
  | nil =>
    intro done st h p2 hp2 hs2
    simp only [manage_go] at hp2
    exact h p2 (by simpa using hp2) hs2
  | cons p rest ih =>
    intro done st h p2 hp2 hs2
    have hshift : ∀ p3 ∈ (done ++ [p]) ++ rest, p3.symbol = s →
        x ≤ p3.current_sl := by
      intro p3 hp3 hs3
      rw [List.append_assoc, List.singleton_append] at hp3
      exact h p3 hp3 hs3
    have hdrop : ∀ p3 ∈ done ++ rest, p3.symbol = s →
        x ≤ p3.current_sl := by
      intro p3 hp3 hs3
      rcases List.mem_append.mp hp3 with h3 | h3
      · exact h p3 (List.mem_append.mpr (Or.inl h3)) hs3
      · exact h p3
          (List.mem_append.mpr (Or.inr (List.mem_cons_of_mem p h3))) hs3
    simp only [manage_go] at hp2
    split at hp2
    · exact ih (done ++ [p]) st hshift p2 hp2 hs2
    · split at hp2
      · exact ih (done ++ [p]) st hshift p2 hp2 hs2
      · rename_i q hq
        split at hp2
        · exact ih (done ++ [p]) st hshift p2 hp2 hs2
        · split at hp2
          · exact ih done _ hdrop p2 hp2 hs2
          · refine ih (done ++ [apply_ratchet p q.ltp]) st ?_ p2 hp2 hs2
            intro p3 hp3 hs3
            rw [List.append_assoc, List.singleton_append] at hp3
            rcases List.mem_append.mp hp3 with h3 | h3
            · exact h p3 (List.mem_append.mpr (Or.inl h3)) hs3
            · rcases List.mem_cons.mp h3 with h4 | h4
              · subst h4
                refine le_trans
                  (h p (List.mem_append.mpr
                    (Or.inr (List.mem_cons_self p rest))) ?_)
                  (apply_ratchet_sl p q.ltp)
                rw [← apply_ratchet_symbol p q.ltp]
                exact hs3
              · exact h p3
                  (List.mem_append.mpr
                    (Or.inr (List.mem_cons_of_mem p h4))) hs3

/-- C1: across any sequence of quote snapshots the stop of every open
position carrying a given symbol never drops below any initial lower
bound (in particular it is non-decreasing across the sequence), and a
ratchet candidate is applied exactly when it is strictly greater than
the current stop. -/
theorem stop_monotone_ratchet :
    (∀ (cycles : List (String → Option Quote)) (st : BotState)
        (s : String) (x : ℚ),
      (∀ p ∈ st.virtual_positions, p.symbol = s → x ≤ p.current_sl) →
      ∀ p2 ∈ (run_cycles cycles st).virtual_positions,
        p2.symbol = s → x ≤ p2.current_sl) ∧
    (∀ (p : Position) (ltp : ℚ),
      (p.current_sl < ratchet_candidate p ltp →
        apply_ratchet p ltp =
          { p with current_sl := ratchet_candidate p ltp }) ∧
      (¬p.current_sl < ratchet_candidate p ltp →
        apply_ratchet p ltp = p)) := by
  constructor
  · intro cycles
    induction cycles with
    | nil =>
      intro st s x h p2 hp2 hs2
      exact h p2 (by simpa [run_cycles] using hp2) hs2
    | cons c cs ih =>
      intro st s x h p2 hp2 hs2
      have hrw : run_cycles (c :: cs) st =
          run_cycles cs (manage_positions c st) := by
        simp [run_cycles]
      rw [hrw] at hp2
      refine ih (manage_positions c st) s x ?_ p2 hp2 hs2
      intro p3 hp3 hs3
      exact manage_go_sl_lb c s x st.virtual_positions [] st
        (by simpa using h) p3 hp3 hs3
  · intro p ltp
    constructor
    · intro h
      unfold apply_ratchet
      rw [if_pos h]
    · intro h
      unfold apply_ratchet
      rw [if_neg h]

/-- Witness for C1: after the 151 quote the surviving position's stop
108 is still at or above the initial bound 40. -/
theorem stop_monotone_witness : (40 : ℚ) ≤ (w_pos 108).current_sl := by
  have hrun : (run_cycles [w_quote 151] (w_state 40)).virtual_positions =
      [w_pos 108] := by
    simp only [run_cycles, List.foldl_cons, List.foldl_nil]
    rw [eval_ratchet_151]
    simp [w_state]
  refine stop_monotone_ratchet.1 [w_quote 151] (w_state 40) "S" 40 ?_
    (w_pos 108) ?_ rfl
  · intro p3 hp3 hs3
    simp only [w_state, List.mem_singleton] at hp3
    subst hp3
    norm_num [w_pos]
  · rw [hrun]
    exact List.mem_singleton.mpr rfl

/-- The close-atomicity invariant is preserved by the management loop,
both on the running state and on every snapshot it persists. -/
theorem manage_go_inv (quotes : String → Option Quote) (s : String) :
    ∀ (rest done : List Position) (st : BotState),
      symCount s (done ++ rest) + symCount s st.trade_history = 1 →
      (∀ snap ∈ st.saves, closeInv s snap) →
      (symCount s (manage_go quotes done rest st).virtual_positions +
        symCount s (manage_go quotes done rest st).trade_history = 1) ∧
      (∀ snap ∈ (manage_go quotes done rest st).saves,
        closeInv s snap) := by
  intro rest
  induction rest with
  | nil =>
    intro done st h hs
    constructor
    · simp only [manage_go]
      simpa using h
    · simpa [manage_go] using hs
  | cons p rest ih =>
    intro done st h hs
    have hshift : symCount s ((done ++ [p]) ++ rest) +
        symCount s st.trade_history = 1 := by
      rw [List.append_assoc, List.singleton_append]
      exact h
    simp only [manage_go]
    split
    · exact ih (done ++ [p]) st hshift hs
    · split
      · exact ih (done ++ [p]) st hshift hs
      · rename_i q hq
        split
        · exact ih (done ++ [p]) st hshift hs
        · split
          · -- stop hit: the position moves from the open set to history
            have hkey : symCount s (done ++ rest) +
                symCount s (st.trade_history ++ [close_record p q.ltp]) =
                  1 := by
              have h1 := symCount_append s done (p :: rest)
              have h2 := symCount_cons s p rest
              have h3 := symCount_append s done rest
              have h4 := symCount_append s st.trade_history
                [close_record p q.ltp]
              have h5 := symCount_singleton_congr s p
                (close_record p q.ltp) (close_record_symbol p q.ltp)
              rw [h1, h2] at h
              omega
            refine ih done _ ?_ ?_
            · simpa [save_state] using hkey
            · intro snap hsnap
              simp only [save_state, List.mem_append,
                List.mem_singleton] at hsnap
              rcases hsnap with h6 | h6
              · exact hs snap h6
              · subst h6
                simpa [snapshot, closeInv] using hkey
          · -- ratchet: the symbol multiset of the open set is unchanged
            refine ih (done ++ [apply_ratchet p q.ltp]) st ?_ hs
            have h1 := symCount_append s done (p :: rest)
            have h2 := symCount_cons s p rest
            have h3 := symCount_append s (done ++ [apply_ratchet p q.ltp])
              rest
            have h4 := symCount_append s done [apply_ratchet p q.ltp]
            have h5 := symCount_singleton_congr s p
              (apply_ratchet p q.ltp) (apply_ratchet_symbol p q.ltp)
            rw [h1, h2] at h
            rw [h3, h4]
            omega

/-- C4: a position closes at most once — starting from a state in which
a symbol is open exactly once and absent from history, after any
sequence of management passes the symbol is in the open set or in the
history but never in both and never twice, and the same holds in every
snapshot the passes persisted. -/
theorem close_at_most_once :
    ∀ (cycles : List (String → Option Quote)) (st : BotState)
      (s : String),
      symCount s st.virtual_positions + symCount s st.trade_history = 1 →
      (∀ snap ∈ st.saves, closeInv s snap) →
      closeInv s (snapshot (run_cycles cycles st)) ∧
      ∀ snap ∈ (run_cycles cycles st).saves, closeInv s snap := by
  intro cycles
  induction cycles with
  | nil =>
    intro st s h hs
    constructor
    · simpa [closeInv, snapshot, run_cycles] using h
    · simpa [run_cycles] using hs
  | cons c cs ih =>
    intro st s h hs
    have h1 := manage_go_inv c s st.virtual_positions [] st
      (by simpa using h) hs
    have hrw : run_cycles (c :: cs) st =
        run_cycles cs (manage_positions c st) := by
      simp [run_cycles]
    rw [hrw]
    exact ih (manage_positions c st) s h1.1 h1.2

/-- Witness for C4: after a stop-hit pass the closed symbol still
satisfies the open-or-history-exactly-once invariant. -/
theorem close_at_most_once_witness :
    closeInv "S" (snapshot (run_cycles [w_quote 30] (w_state 40))) :=
  (close_at_most_once [w_quote 30] (w_state 40) "S"
    (by simp [symCount, w_state, w_pos, List.filter_cons, List.filter_nil])
    (by simp [w_state])).1

/-- C10: whatever the collaborators return, an invocation of the entry
routine either leaves the open-position list unchanged or appends
exactly one new open position while setting the monthly trade counter to
its post-rollover value plus one and resetting the consecutive-loss
counter to zero. -/
theorem entry_counter_effects :
    ∀ (env : TryEnv) (today : Date) (st : BotState),
      (try_entry env today st).virtual_positions = st.virtual_positions ∨
      ∃ p : Position,
        (try_entry env today st).virtual_positions =
          st.virtual_positions ++ [p] ∧
        p.status = Status.opened ∧
        (try_entry env today st).monthly_trades =
          (is_new_month today st).monthly_trades + 1 ∧
        (try_entry env today st).consec_losses = 0 := by
  intro env today st
  have hsnd : (can_trade today st).2 = is_new_month today st := by
    unfold can_trade
    split_ifs <;> rfl
  have hpos : (is_new_month today st).virtual_positions =
      st.virtual_positions := by
    unfold is_new_month save_state
    split_ifs <;> rfl
  simp only [try_entry, hsnd]
  split
  · exact Or.inl hpos
  · split
    · exact Or.inl hpos
    · rename_i spot
      split
      · exact Or.inl hpos
      · split
        · exact Or.inl hpos
        · split
          · exact Or.inl hpos
          · rename_i pr hpr
            split
            · exact Or.inl hpos
            · split
              · exact Or.inl hpos
              · rename_i sym hsym
                split
                · exact Or.inl hpos
                · rename_i q hqq
                  split
                  · exact Or.inl hpos
                  · split
                    · exact Or.inl hpos
                    · refine Or.inr
                        ⟨⟨sym, q.ltp, LOT_SIZE, q.ltp - SL_POINTS,
                          Status.opened, none, none⟩, ?_, ?_, ?_, ?_⟩ <;>
                        simp [SIMULATION_MODE, save_state, hpos]

/-- Witness for C10: the entry-effects disjunction at collaborator
inputs on which every stage succeeds. -/
theorem entry_counter_effects_witness :
    (try_entry demo_env ⟨2026, 10, 12⟩ demo_state).virtual_positions =
      demo_state.virtual_positions ∨
    ∃ p : Position,
      (try_entry demo_env ⟨2026, 10, 12⟩ demo_state).virtual_positions =
        demo_state.virtual_positions ++ [p] ∧
      p.status = Status.opened ∧
      (try_entry demo_env ⟨2026, 10, 12⟩ demo_state).monthly_trades =
        (is_new_month ⟨2026, 10, 12⟩ demo_state).monthly_trades + 1 ∧
      (try_entry demo_env ⟨2026, 10, 12⟩ demo_state).consec_losses = 0 :=
  entry_counter_effects demo_env ⟨2026, 10, 12⟩ demo_state

end LiveBot
